import Mathlib

/-!
Shallow embedding of the naruto-facts-bot news variant (src/bot.py).

Python strings are modelled as `List Char` (so `len`, slicing and `in`
coincide with list length, `take` and membership).  The external
capabilities (OpenAI completion, Google image search, page scraping,
HTML parsing, image download, Twitter media upload and tweet creation)
are opaque oracles collected in an `Env` record; each pure piece of
bot.py is translated directly.
-/

set_option maxRecDepth 10000

abbrev Text := List Char

/-- Python truthiness of an optional string: `None` and `""` are falsy. -/
def truthy : Option Text → Bool
  | none => false
  | some s => !s.isEmpty

/-- The ellipsis marker `"..."` appended by post_tweet (bot.py line 200). -/
def ellipsis : Text := ['.', '.', '.']

/-- The length enforcement inlined in post_tweet (bot.py lines 199-200):
`if len(text) > 280: text = text[:277] + "..."`. -/
def truncate280 (t : Text) : Text :=
  if t.length > 280 then t.take 277 ++ ellipsis else t

theorem truncate280_def (t : Text) :
    truncate280 t = if t.length > 280 then t.take 277 ++ ellipsis else t := rfl

theorem truncate280_length_le (t : Text) : (truncate280 t).length ≤ 280 := by
  rw [truncate280_def]
  split
  · simp only [List.length_append, List.length_take, ellipsis, List.length_cons,
      List.length_nil]
    omega
  · omega

/-- External capabilities of bot.py, as oracles.  `api` is the OpenAI chat
completion result for a headline (`none` models a raised exception);
`googleImage` is search_google_image; `scrape` is scrape_article_image;
`firstImg` is the BeautifulSoup scan of an entry content block for the
first img src; `download` tells whether download_image succeeds;
`mediaUpload` is api.media_upload (`none` models a raised exception);
`createTweet` tells whether twitter.create_tweet succeeds. -/
structure Env where
  api : Text → Option Text
  googleImage : Text → Option Text
  scrape : Text → Option Text
  firstImg : Text → Option Text
  download : Text → Bool
  mediaUpload : Text → Option Nat
  createTweet : Text → Nat → Bool

/-- The image chosen by post_tweet (bot.py lines 201-204): the given
image_url when truthy, otherwise the Google image search result. -/
def finalImage (env : Env) (image_url : Option Text) (q : Text) : Option Text :=
  if truthy image_url then image_url else env.googleImage q

/-- post_tweet (bot.py lines 198-223).  Returns the Python boolean result
together with the text actually handed to twitter.create_tweet (`none`
when create_tweet was never reached: no image, download failure, or
media_upload raising). -/
def postTweet (env : Env) (text : Text) (image_url : Option Text) (q : Text) :
    Bool × Option Text :=
  if truthy (finalImage env image_url q) then
    if env.download ((finalImage env image_url q).getD []) then
      match env.mediaUpload ((finalImage env image_url q).getD []) with
      | some mid => (env.createTweet (truncate280 text) mid, some (truncate280 text))
      | none => (false, none)
    else (false, none)
  else (false, none)

theorem postTweet_snd (env : Env) (text : Text) (img : Option Text) (q : Text) :
    (postTweet env text img q).2 = none ∨
      (postTweet env text img q).2 = some (truncate280 text) := by
  unfold postTweet
  split
  · split
    · cases env.mediaUpload ((finalImage env img q).getD []) <;> simp
    · simp
  · simp

/-- Python str.strip(): drop whitespace from both ends. -/
def pyStrip (t : Text) : Text :=
  ((t.dropWhile Char.isWhitespace).reverse.dropWhile Char.isWhitespace).reverse

/-- rewrite_news (bot.py lines 176-193): on API success return the stripped
completion, on any exception return the original headline. -/
def rewrite_news (apiResult : Option Text) (title : Text) : Text :=
  match apiResult with
  | some content => pyStrip content
  | none => title

/-- The fallback query built in run_bot (bot.py line 241): `f"anime {tweet_text}"`. -/
def animeQuery (t : Text) : Text := "anime ".toList ++ t

/-- A fetched news item as built by fetch_latest_news (bot.py line 167). -/
structure NewsItem where
  title : Text
  link : Text
  image_url : Option Text
  deriving DecidableEq

/-- The rewritten tweet text for an item (bot.py line 240). -/
def tweetText (env : Env) (item : NewsItem) : Text :=
  rewrite_news (env.api item.title) item.title

/-- The post_tweet call run_bot makes for one item (bot.py line 241). -/
def attempt (env : Env) (item : NewsItem) : Bool × Option Text :=
  postTweet env (tweetText env item) item.image_url (animeQuery (tweetText env item))

/-- Outcome of a run: the persisted record, the titles handed to
rewrite_news, and the texts handed to twitter.create_tweet. -/
structure RunResult where
  record : List Text
  rewrites : List Text
  publishes : List Text
  deriving DecidableEq

/-- run_bot (bot.py lines 228-247): skip links already in the record,
rewrite and attempt to post each remaining item, and on the first success
append its link to the record and stop. -/
def runBot (env : Env) (posted : List Text) : List NewsItem → RunResult
  | [] => ⟨posted, [], []⟩
  | item :: rest =>
    if item.link ∈ posted then runBot env posted rest
    else if (attempt env item).1 then
      ⟨posted ++ [item.link], [item.title], (attempt env item).2.toList⟩
    else
      ⟨(runBot env posted rest).record,
        item.title :: (runBot env posted rest).rewrites,
        (attempt env item).2.toList ++ (runBot env posted rest).publishes⟩

/-- An RSS enclosure: its MIME type string and optional href. -/
structure Enclosure where
  etype : Text
  href : Option Text
  deriving DecidableEq

/-- A raw feed entry as seen by fetch_latest_news.  `tags` is the list of
tag terms when the entry has a tags attribute; `media_content` is the
list of url fields of the media_content dicts when that attribute is
present; `content` is the list of content values (HTML blocks). -/
structure FeedEntry where
  title : Text
  link : Text
  tags : Option (List Text)
  media_content : Option (List (Option Text))
  enclosures : Option (List Enclosure)
  content : Option (List Text)
  deriving DecidableEq

/-- First enclosure of image type, as in bot.py lines 156-159. -/
def firstImageEnclosure : List Enclosure → Option Text
  | [] => none
  | enc :: rest =>
    if ("image/".toList).isPrefixOf enc.etype then enc.href
    else firstImageEnclosure rest

/-- The in-entry image chain of fetch_latest_news (bot.py lines 152-164):
media_content first url, elif image-type enclosure href, elif first img
src of the first content block. -/
def entryImage (env : Env) (e : FeedEntry) : Option Text :=
  match e.media_content with
  | some (u :: _) => u
  | _ =>
    match e.enclosures with
    | some (enc :: encs) => firstImageEnclosure (enc :: encs)
    | _ =>
      match e.content with
      | some (c :: _) => env.firstImg c
      | _ => none

/-- Full image resolution for an entry (bot.py lines 152-166): the
in-entry image when truthy, otherwise scrape_article_image on the link. -/
def resolveImage (env : Env) (e : FeedEntry) : Option Text :=
  if truthy (entryImage env e) then entryImage env e else env.scrape e.link

/-- The news item fetch_latest_news appends for a kept entry (bot.py line 167). -/
def mkItem (env : Env) (e : FeedEntry) : NewsItem :=
  ⟨e.title, e.link, resolveImage env e⟩

/-- Lowercasing, as Python str.lower() on ASCII. -/
def lowerT (t : Text) : Text := t.map Char.toLower

/-- The news-like tag terms of bot.py line 146. -/
def NEWS_TAGS : List Text := ["news".toList, "press release".toList, "announcement".toList]

/-- The exclude_terms list of bot.py line 144. -/
def EXCLUDE_TERMS : List Text :=
  ["review".toList, "interview".toList, "column".toList, "editorial".toList,
    "interest".toList]

/-- Python substring test `needle in hay`. -/
def isSubOf (needle : Text) : Text → Bool
  | [] => needle.isEmpty
  | c :: rest => needle.isPrefixOf (c :: rest) || isSubOf needle rest

/-- Tag-based classification (bot.py lines 145-146): true when the entry
has tags and some lowered tag term is news-like. -/
def tagIsNews (e : FeedEntry) : Bool :=
  match e.tags with
  | some ts => ts.any (fun tg => NEWS_TAGS.contains (lowerT tg))
  | none => false

/-- Title heuristic (bot.py line 147): some exclude term occurs in the
lowered title. -/
def titleExcluded (e : FeedEntry) : Bool :=
  EXCLUDE_TERMS.any (fun term => isSubOf term (lowerT e.title))

/-- The is_news computation of bot.py lines 143-148: start from the tag
check, then set true whenever it is still false and the title has no
exclude term. -/
def is_news_entry (e : FeedEntry) : Bool :=
  let n := tagIsNews e
  if !n && !titleExcluded e then true else n

/-- fetch_latest_news (bot.py lines 129-171): keep the first five entries
that classify as news and resolve an image for each. -/
def fetch_latest_news (env : Env) (entries : List FeedEntry) : List NewsItem :=
  ((entries.take 5).filter is_news_entry).map (mkItem env)

/-- load_posted (bot.py lines 54-58).  `fileExists` models
os.path.exists(POSTED_FILE); `content` is the parse result of the file,
`none` when the content is corrupt or unreadable, in which case json.load
raises and the error propagates out of load_posted (modelled as
Except.error). -/
def load_posted (fileExists : Bool) (content : Option (List Text)) :
    Except Unit (List Text) :=
  if fileExists then
    match content with
    | some record => Except.ok record
    | none => Except.error ()
  else
    Except.ok []

/-- Modelled from the spec: the fixed, hardcoded fallback string the
fact-variant candidate generator returns on total exhaustion.  The
fact-variant generator is not among the repository files under src/. -/
def FALLBACK_FACT : Text := "Naruto fact: Naruto Uzumaki dreams of becoming Hokage!".toList

/-- Modelled from the spec: the fact-variant candidate generator, absent
from src/.  It walks the stream of model completions (across fallback
models and retries), rejects any candidate that exactly matches a prior
record entry (case-sensitive) and retries with the next completion, and
returns the fixed fallback string on total exhaustion. -/
def generate_fact (candidates record : List Text) : Text :=
  match candidates with
  | [] => FALLBACK_FACT
  | c :: cs => if c ∈ record then generate_fact cs record else c

/-- Longest beginning segment of `pre` that ends in a period, if any. -/
def lastPeriodCut (pre : Text) : Option Text :=
  match pre.reverse.dropWhile (fun c => c != '.') with
  | [] => none
  | l => some l.reverse

/-- The length-enforcement policy as the specification words it, for
comparison with the truncation post_tweet actually performs: when the
naive concatenation of body and suffix exceeds the ceiling, truncate the
body to leave room for the suffix, cutting at the last sentence boundary
(period) within the allowed beginning segment when one exists, and
otherwise hard-truncating and appending an ellipsis marker. -/
def truncate_spec (body suffix : Text) (ceiling : Nat) : Text :=
  if (body ++ suffix).length ≤ ceiling then body ++ suffix
  else
    match lastPeriodCut (body.take (ceiling - suffix.length)) with
    | some cut => cut ++ suffix
    | none => body.take (ceiling - suffix.length - 3) ++ ellipsis ++ suffix

/-- An environment in which every external call fails or finds nothing. -/
def envNone : Env :=
  ⟨fun _ => none, fun _ => none, fun _ => none, fun _ => none,
    fun _ => false, fun _ => none, fun _ _ => false⟩

/-- An environment in which image lookup, download, upload and posting
all succeed. -/
def envOk : Env :=
  ⟨fun _ => none, fun _ => some ['u'], fun _ => some ['u'], fun _ => some ['u'],
    fun _ => true, fun _ => some 0, fun _ _ => true⟩

/-- C1: every candidate text passed to the publish step is handed to the
platform create-post call with length at most 280 characters. -/
theorem posted_text_length_le_ceiling (env : Env) (text : Text) (img : Option Text)
    (q : Text) (s : Text) (h : (postTweet env text img q).2 = some s) :
    s.length ≤ 280 := by
  rcases postTweet_snd env text img q with h0 | h0 <;> rw [h0] at h
  · exact absurd h (by simp)
  · rw [← Option.some.inj h]
    exact truncate280_length_le text

/-- C1 witness: a concrete successful publish of a 300-character text. -/
theorem posted_text_length_le_ceiling_witness :
    ((List.replicate 300 'X').take 277 ++ ellipsis).length ≤ 280 :=
  posted_text_length_le_ceiling envOk (List.replicate 300 'X') (some ['u']) []
    ((List.replicate 300 'X').take 277 ++ ellipsis) (by decide)

/-- C5: length enforcement is idempotent and a no-op on texts already
within the ceiling (it is a pure function, hence deterministic). -/
theorem truncate_idempotent_noop (t : Text) :
    truncate280 (truncate280 t) = truncate280 t ∧
      (t.length ≤ 280 → truncate280 t = t) := by
  constructor
  · have hle := truncate280_length_le t
    rw [truncate280_def (truncate280 t), if_neg (by omega)]
  · intro h
    rw [truncate280_def, if_neg (by omega)]

/-- C5 witness: idempotence at a 290-character text and the no-op at a
one-character text. -/
theorem truncate_idempotent_noop_witness :
    truncate280 (truncate280 (List.replicate 290 'Y')) =
        truncate280 (List.replicate 290 'Y') ∧
      truncate280 ['b'] = ['b'] :=
  ⟨(truncate_idempotent_noop (List.replicate 290 'Y')).1,
    (truncate_idempotent_noop ['b']).2 (by decide)⟩

/-- C10: texts longer than 280 characters are cut to their first 277
characters plus "...", giving length exactly 280 and an ellipsis ending;
texts of length at most 280 reach the publish call unchanged, and every
text handed to the create-post call is exactly the truncation of the
input. -/
theorem truncate_exact_form (t : Text) :
    (t.length > 280 →
      truncate280 t = t.take 277 ++ ellipsis ∧ (truncate280 t).length = 280 ∧
        ellipsis <:+ truncate280 t) ∧
      (t.length ≤ 280 → truncate280 t = t) ∧
      ∀ env img q s, (postTweet env t img q).2 = some s → s = truncate280 t := by
  refine ⟨?_, ?_, ?_⟩
  · intro h
    rw [truncate280_def, if_pos h]
    refine ⟨rfl, ?_, ⟨t.take 277, rfl⟩⟩
    simp only [List.length_append, List.length_take, ellipsis, List.length_cons,
      List.length_nil]
    omega
  · intro h
    rw [truncate280_def, if_neg (by omega)]
  · intro env img q s h
    rcases postTweet_snd env t img q with h0 | h0 <;> rw [h0] at h
    · exact absurd h (by simp)
    · exact (Option.some.inj h).symm

/-- C10 witness: the exact output at a 281-character text, the no-op at a
short text, and the publish-call text at a concrete successful post. -/
theorem truncate_exact_form_witness :
    truncate280 (List.replicate 281 'X') = List.replicate 277 'X' ++ ellipsis ∧
      truncate280 ['a'] = ['a'] ∧ (['a'] : Text) = truncate280 ['a'] := by
  refine ⟨?_, ?_, ?_⟩
  · rw [((truncate_exact_form (List.replicate 281 'X')).1 (by decide)).1]
    decide
  · exact (truncate_exact_form ['a']).2.1 (by decide)
  · exact (truncate_exact_form ['a']).2.2 envOk (some ['u']) [] ['a'] (by decide)

/-- C4 counterexample: for the 300-character body starting with a period
(and the empty suffix, since post_tweet appends no hashtag suffix at
all), the spec policy cuts at the sentence boundary, yielding ".", while
the code hard-truncates to the first 277 characters plus "...": the
publish step never cuts at a sentence boundary. -/
theorem truncate_not_sentence_boundary_cex :
    truncate280 ('.' :: List.replicate 299 'X') ≠
        truncate_spec ('.' :: List.replicate 299 'X') [] 280 ∧
      truncate280 ('.' :: List.replicate 299 'X') =
        '.' :: (List.replicate 276 'X' ++ ellipsis) := by
  constructor <;> decide

/-- C4 amended: the code applies no hashtag suffix and no sentence
boundary cut; every text longer than 280 characters is hard-truncated to
its first 277 characters with the ellipsis marker appended. -/
theorem truncate_hard_cut (t : Text) (h : t.length > 280) :
    truncate280 t = t.take 277 ++ ellipsis := by
  rw [truncate280_def, if_pos h]

/-- C4 amended witness: the hard cut at a concrete 300-character text. -/
theorem truncate_hard_cut_witness :
    truncate280 (List.replicate 300 'A') = (List.replicate 300 'A').take 277 ++ ellipsis :=
  truncate_hard_cut (List.replicate 300 'A') (by decide)

/-- C6 counterexample: the fallback output of rewrite_news on generation
failure depends on the input headline, so it is not a fixed, hardcoded
fallback string. -/
theorem rewrite_fallback_not_fixed_cex :
    rewrite_news none ['a'] ≠ rewrite_news none ['b'] := by decide

/-- C6 amended: when the generation call fails, rewrite_news returns the
original headline unchanged, and that fallback is itself subject to the
same length enforcement: any text the publish step hands to the
create-post call for it is exactly its truncation. -/
theorem rewrite_fallback_is_title (title : Text) (env : Env) (img : Option Text)
    (q : Text) (s : Text) :
    rewrite_news none title = title ∧
      ((postTweet env (rewrite_news none title) img q).2 = some s →
        s = truncate280 title) := by
  refine ⟨rfl, fun h => ?_⟩
  rcases postTweet_snd env (rewrite_news none title) img q with h0 | h0 <;> rw [h0] at h
  · exact absurd h (by simp)
  · exact (Option.some.inj h).symm

/-- C6 amended witness: a concrete failed generation whose headline is
published unchanged. -/
theorem rewrite_fallback_is_title_witness :
    rewrite_news none ['a'] = ['a'] ∧ (['a'] : Text) = truncate280 ['a'] :=
  ⟨(rewrite_fallback_is_title ['a'] envOk (some ['u']) [] ['a']).1,
    (rewrite_fallback_is_title ['a'] envOk (some ['u']) [] ['a']).2 (by decide)⟩

/-- C8 counterexample: when the record file exists but its content is
corrupt, load_posted propagates the json.load error instead of returning
the empty array. -/
theorem load_corrupt_errors_cex :
    load_posted true none = Except.error () ∧ load_posted true none ≠ Except.ok [] :=
  ⟨rfl, fun h => Except.noConfusion h⟩

/-- C8 amended: when the record file does not exist, load_posted returns
the empty sequence without raising; when it exists and parses, the parse
result is returned; when it exists but is corrupt, json.load raises and
the error propagates out of load_posted. -/
theorem load_posted_behavior :
    (∀ c, load_posted false c = Except.ok []) ∧
      (∀ r, load_posted true (some r) = Except.ok r) ∧
      load_posted true none = Except.error () :=
  ⟨fun _ => rfl, fun _ => rfl, rfl⟩

/-- C9 counterexample: an entry with tags present but no news-like tag
("preview") and a title without exclude terms is classified as news by
the code, while the claim says it is non-news regardless of its title. -/
theorem tags_present_title_decides_cex :
    tagIsNews
        { title := "New Naruto Movie".toList, link := "https://e.com/a".toList,
          tags := some ["preview".toList], media_content := none,
          enclosures := none, content := none } = false ∧
      is_news_entry
        { title := "New Naruto Movie".toList, link := "https://e.com/a".toList,
          tags := some ["preview".toList], media_content := none,
          enclosures := none, content := none } = true := by
  constructor <;> decide

/-- C9 amended: classification is the disjunction of the tag check and
the title heuristic: an entry is news when some tag term is news-like, or
when the title contains no exclude term — the title heuristic applies
whenever the tag check did not already classify the entry as news, even
when tags are present. -/
theorem news_classification_formula (e : FeedEntry) :
    is_news_entry e = (tagIsNews e || !titleExcluded e) := by
  cases h1 : tagIsNews e <;> cases h2 : titleExcluded e <;>
    simp [is_news_entry, h1, h2]

/-- C2: a feed entry whose link is already in the record is skipped by
run_bot without rewriting or posting (the whole run outcome is as if the
entry were absent), and the fact-variant generator, modelled from the
spec, never returns a candidate that exactly matches a record entry: it
retries with the next completion or returns the fixed fallback. -/
theorem skip_posted_link_and_reject_duplicate (env : Env) (posted : List Text)
    (item : NewsItem) (rest : List NewsItem) :
    (item.link ∈ posted →
        runBot env posted (item :: rest) = runBot env posted rest) ∧
      ∀ cands record : List Text,
        generate_fact cands record ∉ record ∨
          generate_fact cands record = FALLBACK_FACT := by
  constructor
  · intro h
    simp [runBot, h]
  · intro cands record
    induction cands with
    | nil => exact Or.inr rfl
    | cons c cs ih =>
      by_cases hc : c ∈ record
      · simpa [generate_fact, hc] using ih
      · exact Or.inl (by simp [generate_fact, hc])

/-- C2 witness: a concrete run skipping an already-recorded link, and the
generator rejecting a concrete duplicate. -/
theorem skip_posted_link_and_reject_duplicate_witness :
    runBot envNone [['l']] [(⟨['t'], ['l'], none⟩ : NewsItem)] =
        runBot envNone [['l']] [] ∧
      (generate_fact [['a']] [['a']] ∉ [(['a'] : Text)] ∨
        generate_fact [['a']] [['a']] = FALLBACK_FACT) :=
  ⟨(skip_posted_link_and_reject_duplicate envNone [['l']] ⟨['t'], ['l'], none⟩ []).1
      (by decide),
    (skip_posted_link_and_reject_duplicate envNone [['l']] ⟨['t'], ['l'], none⟩ []).2
      [['a']] [['a']]⟩

/-- C3: each invocation of run_bot changes the record only by appending:
the resulting record is either exactly the prior record, or the prior
record with exactly one link appended at the end, that link coming from a
feed item and not already present in the prior record; no existing entry
is removed or reordered. -/
theorem record_append_only (env : Env) (posted : List Text) (news : List NewsItem) :
    (runBot env posted news).record = posted ∨
      ∃ item ∈ news, item.link ∉ posted ∧
        (runBot env posted news).record = posted ++ [item.link] := by
  induction news with
  | nil => exact Or.inl rfl
  | cons item rest ih =>
    by_cases hmem : item.link ∈ posted
    · have hstep : runBot env posted (item :: rest) = runBot env posted rest := by
        simp [runBot, hmem]
      rw [hstep]
      rcases ih with h | ⟨it, hin, hl, hr⟩
      · exact Or.inl h
      · exact Or.inr ⟨it, List.mem_cons_of_mem _ hin, hl, hr⟩
    · cases hs : (attempt env item).1 with
      | true =>
        refine Or.inr ⟨item, List.mem_cons_self item rest, hmem, ?_⟩
        simp [runBot, hmem, hs]
      | false =>
        have hstep : (runBot env posted (item :: rest)).record =
            (runBot env posted rest).record := by
          simp [runBot, hmem, hs]
        rw [hstep]
        rcases ih with h | ⟨it, hin, hl, hr⟩
        · exact Or.inl h
        · exact Or.inr ⟨it, List.mem_cons_of_mem _ hin, hl, hr⟩

theorem firstImageEnclosure_eq_none (l : List Enclosure)
    (h : ∀ enc ∈ l, ("image/".toList).isPrefixOf enc.etype = false) :
    firstImageEnclosure l = none := by
  induction l with
  | nil => rfl
  | cons enc rest ih =>
    have hx := h enc (List.mem_cons_self enc rest)
    simp at hx
    simp [firstImageEnclosure, hx]
    exact ih fun x hxm => h x (List.mem_cons_of_mem _ hxm)

/-- C7: a news entry for which the whole image fallback chain yields
nothing (no media attachment, no image-type member among whatever
enclosures it has, no embedded image in its first content block, page
scraping finds nothing, image search finds nothing) is skipped without
posting: the run record and the texts handed to the create-post call are
exactly those of the run on the remaining entries. -/
theorem no_image_skips_entry (env : Env) (posted : List Text) (e : FeedEntry)
    (rest : List NewsItem)
    (hm : e.media_content = none ∨ e.media_content = some [])
    (he : ∀ l, e.enclosures = some l →
      ∀ enc ∈ l, ("image/".toList).isPrefixOf enc.etype = false)
    (hc : ∀ c cl, e.content = some (c :: cl) → env.firstImg c = none)
    (hs : env.scrape e.link = none)
    (hg : env.googleImage (animeQuery (rewrite_news (env.api e.title) e.title)) = none) :
    (runBot env posted (mkItem env e :: rest)).record =
        (runBot env posted rest).record ∧
      (runBot env posted (mkItem env e :: rest)).publishes =
        (runBot env posted rest).publishes := by
  have hentry : entryImage env e = none := by
    unfold entryImage
    rcases hm with hm | hm <;> rw [hm] <;>
      cases hen : e.enclosures with
      | some l =>
        cases l with
        | nil =>
          cases hco : e.content with
          | none => rfl
          | some co =>
            cases co with
            | nil => rfl
            | cons c cl => exact hc c cl hco
        | cons enc encs => exact firstImageEnclosure_eq_none _ (he _ hen)
      | none =>
        cases hco : e.content with
        | none => rfl
        | some co =>
          cases co with
          | nil => rfl
          | cons c cl => exact hc c cl hco
  have himg : resolveImage env e = none := by
    unfold resolveImage
    rw [hentry]
    exact hs
  have hatt : attempt env (mkItem env e) = (false, none) := by
    have h2 : (mkItem env e).image_url = none := himg
    have h3 : tweetText env (mkItem env e) = rewrite_news (env.api e.title) e.title := rfl
    simp [attempt, postTweet, finalImage, h2, h3, hg, truthy]
  by_cases hmem : (mkItem env e).link ∈ posted
  · constructor <;> simp [runBot, hmem]
  · constructor <;> simp [runBot, hmem, hatt]

/-- C7 witness: a concrete entry whose only enclosure is an audio one
(so the chain finds no image-type enclosure), in an environment where
scraping and image search find nothing. -/
theorem no_image_skips_entry_witness :
    (runBot envNone []
          [mkItem envNone
            (⟨['t'], ['l'], none, none,
              some [⟨"audio/mpeg".toList, some ['h']⟩], none⟩ : FeedEntry)]).record =
        (runBot envNone [] []).record ∧
      (runBot envNone []
          [mkItem envNone
            (⟨['t'], ['l'], none, none,
              some [⟨"audio/mpeg".toList, some ['h']⟩], none⟩ : FeedEntry)]).publishes =
        (runBot envNone [] []).publishes :=
  no_image_skips_entry envNone []
    ⟨['t'], ['l'], none, none, some [⟨"audio/mpeg".toList, some ['h']⟩], none⟩ []
    (Or.inl rfl)
    (fun _ hl => Option.some.inj hl ▸ (by decide))
    (fun _ _ hco => nomatch hco)
    rfl rfl
